import Mathlib

/-!
Verification of the Ecodat field-visit time-correction core.

This file gives a shallow embedding, in Lean 4, of the core components of
the Ecodat repository and proves (or refutes) the frozen claims about them:

* the protocol-code / day-part extractor `_extract_project_and_daypart`
  (timesuggest utilities),
* the time-suggestion engine `get_fieldvisit_time_suggest`,
* the manual-review flagger `flag_fieldtime_changes`,
* the timestamp normalizers `parse_local` / `to_local`,
* the branch logic of the fallback solar estimator
  `_fallback_sunrise_sunset`.

Modelling conventions:

* A timezone-aware local datetime is modelled as an `Int` of whole seconds
  on a linear local wall-clock axis (all values of one record share the
  fixed civil-timezone offset, per the repository's single shared
  `TIMEZONE` constant).  Python `datetime` comparison, `timedelta`
  addition, `.hour` / `.minute` access and `.replace(hour=..., minute=...,
  second=...)` then become integer arithmetic: euclidean `%`/`/` recover
  the clock fields, and `replace` keeps the floor-day.
* Python `Optional` values become `Option`; a `None` datetime is falsy in
  the source's `if start and sunset_local:` guards, which become `Option`
  pattern matches.
* Strings are handled through their character lists; case-insensitive
  regex tests on ASCII protocol codes are modelled by ASCII upper/lower
  mapping, exactly the character classes the source's patterns use.
-/

/-! ## Character and list utilities (ASCII, as used by the source regexes) -/

/-- ASCII decimal digit test (`\d` on the ASCII inputs the patterns see). -/
def isDigitC (c : Char) : Bool := 48 ≤ c.toNat && c.toNat ≤ 57

/-- Whitespace as matched by `\s` / stripped by `str.strip` (ASCII part). -/
def isSpaceC (c : Char) : Bool :=
  c == ' ' || c == '\t' || c == '\n' || c == '\r' || c == '\x0b' || c == '\x0c'

/-- The separator class `[- ]` of the project-code pattern. -/
def isSepC (c : Char) : Bool := c == '-' || c == ' '

/-- ASCII uppercasing of one character (`str.upper` on the ASCII letters
the code patterns produce). -/
def upChar (c : Char) : Char :=
  if 97 ≤ c.toNat && c.toNat ≤ 122 then Char.ofNat (c.toNat - 32) else c

/-- ASCII lowercasing of one character (`str.lower`). -/
def lowChar (c : Char) : Char :=
  if 65 ≤ c.toNat && c.toNat ≤ 90 then Char.ofNat (c.toNat + 32) else c

/-- `startsL pre l` : `l` begins with `pre` (Python `str.startswith`). -/
def startsL : List Char → List Char → Bool
  | [], _ => true
  | _ :: _, [] => false
  | a :: as, b :: bs => a == b && startsL as bs

/-- `containsL needle hay` : `needle` occurs as a contiguous substring of
`hay` (Python `re.search` of a literal pattern). -/
def containsL (needle : List Char) : List Char → Bool
  | [] => startsL needle []
  | c :: rest => startsL needle (c :: rest) || containsL needle rest

/-- Strip leading and trailing whitespace (Python `str.strip`). -/
def stripL (l : List Char) : List Char :=
  ((l.dropWhile isSpaceC).reverse.dropWhile isSpaceC).reverse

/-- All characters are digits. -/
def allDigits (l : List Char) : Bool := l.all isDigitC

/-- Uppercase a whole string, ASCII-wise. -/
def upperStr (s : String) : String := String.mk (s.toList.map upChar)

/-- Lowercase a string into its character list (the source's
`name_lower = name.lower()`). -/
def lowerList (s : String) : List Char := s.toList.map lowChar

/-! ## Local datetimes

A timezone-aware local datetime of the fixed civil timezone is a plain
`Int` of whole seconds on the linear local wall-clock axis. -/

/-- `dt.hour` : clock hour of the day (euclidean arithmetic, so also
correct for instants before the epoch). -/
def hourOf (t : Int) : Int := t / 3600 % 24

/-- `dt.minute`. -/
def minuteOf (t : Int) : Int := t / 60 % 60

/-- The source's `start.hour * 60 + start.minute` clock-minute count. -/
def clockMin (t : Int) : Int := hourOf t * 60 + minuteOf t

/-- The engine's helper `update_time(dt, hour, minute, second)`:
`dt.replace(hour=..., minute=..., second=...)` — same date (floor day),
replaced clock fields. -/
def update_time (t : Int) (hour minute second : Int) : Int :=
  t - t % 86400 + hour * 3600 + minute * 60 + second

/-! ## Protocol code and day-part extractor

Embedding of `_extract_project_and_daypart` (timesuggest utilities).
The project-code pattern is
`([vzwh]m[- ]?\d+|gz|zr|hm|uitvliegtelling)` searched case-insensitively
over the lowercased name; leftmost match, alternatives in written order,
greedy `\d+`, and the optional `[- ]?` backtracks when no digit follows.
The day-part pattern is `\b(avond|ochtend)\s*([0-9]+|I{1,3})?`. -/

/-- First character of the code pattern: the class `[vzwh]` (on the
lowercased subject). -/
def isCodeLetter (c : Char) : Bool := c == 'v' || c == 'z' || c == 'w' || c == 'h'

/-- Greedy `\d*` continuation: longest digit run. -/
def digitRun (l : List Char) : List Char := l.takeWhile isDigitC

/-- Try the alternative `[vzwh]m[- ]?\d+` at the current position,
returning the matched text.  The optional separator is taken only when a
digit follows it (regex backtracking). -/
def matchAlt1 : List Char → Option (List Char)
  | c0 :: c1 :: rest =>
    if isCodeLetter c0 && (c1 == 'm') then
      match rest with
      | c2 :: c3 :: rest2 =>
        if isSepC c2 && isDigitC c3 then some ([c0, c1, c2, c3] ++ digitRun rest2)
        else if isDigitC c2 then some ([c0, c1, c2] ++ digitRun (c3 :: rest2))
        else none
      | [c2] => if isDigitC c2 then some [c0, c1, c2] else none
      | [] => none
    else none
  | _ => none

/-- Try a literal alternative at the current position. -/
def matchLit (lit l : List Char) : Option (List Char) :=
  if startsL lit l then some lit else none

/-- Try the five alternatives of the code pattern, in the source's order,
at the current position. -/
def matchAt (l : List Char) : Option (List Char) :=
  match matchAlt1 l with
  | some m => some m
  | none =>
    match matchLit ('g' :: ['z']) l with
    | some m => some m
    | none =>
      match matchLit ('z' :: ['r']) l with
      | some m => some m
      | none =>
        match matchLit ('h' :: ['m']) l with
        | some m => some m
        | none => matchLit ("uitvliegtelling".toList) l

/-- `re.search` of the code pattern: scan start positions left to right. -/
def searchCode : List Char → Option (List Char)
  | [] => matchAt []
  | c :: rest =>
    match matchAt (c :: rest) with
    | some m => some m
    | none => searchCode rest

/-- Remove the separators (`.replace(" ", "").replace("-", "")`). -/
def stripSeps (l : List Char) : List Char := l.filter (fun c => !isSepC c)

/-- `re.match(r"VM(\d)$", project)` zero-padding: `VM<digit>` becomes
`VM0<digit>`. -/
def padVM (l : List Char) : List Char :=
  match l with
  | [a, b, d] => if a == 'V' && b == 'M' && isDigitC d then ['V', 'M', '0', d] else l
  | _ => l

/-- `if project.startswith("WM"): project.replace("WM", "VM", 1)` — the
first occurrence is the prefix. -/
def wmFix (l : List Char) : List Char :=
  match l with
  | a :: b :: rest => if a == 'W' && b == 'M' then 'V' :: 'M' :: rest else l
  | _ => l

/-- Post-processing of a raw code match: uppercase, strip separators,
zero-pad single-digit VM codes, rewrite the WM prefix — in exactly the
source's order. -/
def postCode (m : List Char) : String :=
  String.mk (wmFix (padVM (stripSeps (m.map upChar))))

/-- Word characters for the `\b` boundary (`[a-zA-Z0-9_]` on the ASCII
subjects at hand). -/
def isWordChar (c : Char) : Bool :=
  (97 ≤ c.toNat && c.toNat ≤ 122) || (65 ≤ c.toNat && c.toNat ≤ 90) || isDigitC c || c == '_'

/-- Greedy `I{1,3}` (on the lowercased subject): up to three `i`s. -/
def romanRun : List Char → List Char
  | 'i' :: 'i' :: 'i' :: _ => ['i', 'i', 'i']
  | 'i' :: 'i' :: _ => ['i', 'i']
  | 'i' :: _ => ['i']
  | _ => []

/-- The optional group `([0-9]+|I{1,3})?`: a greedy digit run, else a
roman-numeral run, else nothing. -/
def numAt (l : List Char) : Option (List Char) :=
  match l with
  | c :: _ => if isDigitC c then some (digitRun l)
              else if c == 'i' then some (romanRun l) else none
  | [] => none

/-- Try `(avond|ochtend)\s*([0-9]+|I{1,3})?` at the current position:
returns the day-part kind and the raw numeral, if any. -/
def dagAt (l : List Char) : Option (String × Option (List Char)) :=
  if startsL ("avond".toList) l then some ("avond", numAt ((l.drop 5).dropWhile isSpaceC))
  else if startsL ("ochtend".toList) l then some ("ochtend", numAt ((l.drop 7).dropWhile isSpaceC))
  else none

/-- `re.search` of the day-part pattern, honouring the `\b` boundary:
a match may start only where the previous character is not a word
character. -/
def searchDag (prevIsWord : Bool) : List Char → Option (String × Option (List Char))
  | [] => none
  | c :: rest =>
    match (if prevIsWord then none else dagAt (c :: rest)) with
    | some r => some r
    | none => searchDag (isWordChar c) rest

/-- Numeric value of a digit run (Python `int`). -/
def digitsToNat (l : List Char) : Nat := l.foldl (fun a c => a * 10 + (c.toNat - 48)) 0

/-- Normalise the raw numeral: roman `i`/`ii`/`iii` map to 1/2/3, digit
runs go through `int` (dropping leading zeros); the source's
`ValueError` branch is unreachable for the texts this pattern yields. -/
def normNum (nraw : Option (List Char)) : Option String :=
  match nraw with
  | none => none
  | some l =>
    if l == ['i'] then some "1"
    else if l == ['i', 'i'] then some "2"
    else if l == ['i', 'i', 'i'] then some "3"
    else if allDigits l && !l.isEmpty then some (Nat.repr (digitsToNat l))
    else none

/-- Format the day part: `"<kind> <ordinal>"` when an ordinal exists,
else the kind alone. -/
def mkDagdeel (r : String × Option (List Char)) : String :=
  match normNum r.2 with
  | some n => r.1 ++ " " ++ n
  | none => r.1

/-- Embedding of `_extract_project_and_daypart(name)`: `None` and the
empty string yield `(None, None)`; otherwise the code and day-part are
independent pattern searches over the lowercased name. -/
def _extract_project_and_daypart (name : Option String) : Option String × Option String :=
  match name with
  | none => (none, none)
  | some s =>
    if s = "" then (none, none)
    else
      let nl := lowerList s
      ((searchCode nl).map postCode, (searchDag false nl).map mkDagdeel)

/-! ## Time Suggestion Engine

Embedding of `get_fieldvisit_time_suggest`'s per-row adjustment logic
(timesuggest utilities).  The engine receives the row's project code and
day part (`row.get("Project") or ""` — the extractor's output, with null
collapsed to `""`), the parsed reported start/end, and the local
sunrise/sunset anchors, and applies the five rule blocks in the source's
order.  Each block fires only when its code/day-part guard holds and the
times it reads are non-null. -/

/-- `re.fullmatch(r"VM01", proj, re.IGNORECASE)`. -/
def isVM01 (proj : String) : Bool := decide (upperStr proj = "VM01")

/-- `re.fullmatch(r"VM02", proj, re.IGNORECASE)`. -/
def isVM02 (proj : String) : Bool := decide (upperStr proj = "VM02")

/-- `re.search(r"GZ", proj, re.IGNORECASE)`. -/
def hasGZ (proj : String) : Bool := containsL ("GZ".toList) ((upperStr proj).toList)

/-- `re.search(r"ZR", proj, re.IGNORECASE)`. -/
def hasZR (proj : String) : Bool := containsL ("ZR".toList) ((upperStr proj).toList)

/-- `dagdeel.startswith("avond")`. -/
def startsAvond (dagdeel : String) : Bool := startsL ("avond".toList) dagdeel.toList

/-- `dagdeel.startswith("ochtend")`. -/
def startsOchtend (dagdeel : String) : Bool := startsL ("ochtend".toList) dagdeel.toList

/-- An optional datetime field of a row. -/
abbrev OT := Option Int

/-- VM01 evening, start: if outside `[sunset-1h, sunset]`, snap to sunset. -/
def vm01AvondStart (sunsetL : OT) (start : OT) : OT :=
  match start, sunsetL with
  | some st, some ss => if ss < st ∨ st < ss - 3600 then some ss else some st
  | _, _ => start

/-- VM01 evening, end: if outside `[sunset+3h, sunset+4h]`, snap to
sunset+3h. -/
def vm01AvondEnd (sunsetL : OT) (end_ : OT) : OT :=
  match end_, sunsetL with
  | some e, some ss =>
    if e < ss + 3 * 3600 ∨ ss + 4 * 3600 < e then some (ss + 3 * 3600) else some e
  | _, _ => end_

/-- VM01 morning, end: if outside `[sunrise, sunrise+4h]`, snap to
sunrise. -/
def vm01OchtendEnd (sunriseL : OT) (end_ : OT) : OT :=
  match end_, sunriseL with
  | some e, some sr =>
    if e < sr ∨ sr + 4 * 3600 < e then some sr else some e
  | _, _ => end_

/-- VM01 morning, start: if outside `[sunrise-4h, sunrise-3h]`, snap to
sunrise-3h. -/
def vm01OchtendStart (sunriseL : OT) (start : OT) : OT :=
  match start, sunriseL with
  | some st, some sr =>
    if st < sr - 4 * 3600 ∨ sr - 3 * 3600 < st then some (sr - 3 * 3600) else some st
  | _, _ => start

/-- VM02 evening, start: clock minutes must lie in `[22*60+59, 23*60+59]`;
else `update_time(start, 23, 59, 0)`. -/
def vm02Start (start : OT) : OT :=
  match start with
  | some st =>
    if clockMin st < 22 * 60 + 59 ∨ 23 * 60 + 59 < clockMin st
    then some (update_time st 23 59 0) else some st
  | none => none

/-- VM02 evening, midnight rollover: `if start and end and end <= start:
end = end + timedelta(days=1)` (against the already-clamped start). -/
def vm02Roll (start : OT) (end_ : OT) : OT :=
  match start, end_ with
  | some st, some e => if e ≤ st then some (e + 86400) else some e
  | _, _ => end_

/-- VM02 evening, end clock clamp: below 02:00 becomes 02:00, above 03:00
becomes 03:00 (date unchanged). -/
def vm02EndClamp (end_ : OT) : OT :=
  match end_ with
  | some e =>
    if clockMin e < 2 * 60 then some (update_time e 2 0 0)
    else if 3 * 60 < clockMin e then some (update_time e 3 0 0)
    else some e
  | none => none

/-- GZ, start: must lie in `[sunset-150min, sunset-90min]`; else snap to
sunset-90min. -/
def gzStart (sunsetL : OT) (start : OT) : OT :=
  match start, sunsetL with
  | some st, some ss =>
    if ss - 90 * 60 < st ∨ st < ss - 150 * 60 then some (ss - 90 * 60) else some st
  | _, _ => start

/-- GZ, end: must lie in `[sunset+30min, sunset+90min]`; else snap to
sunset+30min. -/
def gzEnd (sunsetL : OT) (end_ : OT) : OT :=
  match end_, sunsetL with
  | some e, some ss =>
    if e < ss + 30 * 60 ∨ ss + 90 * 60 < e then some (ss + 30 * 60) else some e
  | _, _ => end_

/-- ZR, start: must lie in `[sunrise-150min, sunrise-90min]`; else snap to
sunrise-90min. -/
def zrStart (sunriseL : OT) (start : OT) : OT :=
  match start, sunriseL with
  | some st, some sr =>
    if sr - 90 * 60 < st ∨ st < sr - 150 * 60 then some (sr - 90 * 60) else some st
  | _, _ => start

/-- ZR, end: must lie in `[sunrise+30min, sunrise+90min]`; else snap to
sunrise+30min. -/
def zrEnd (sunriseL : OT) (end_ : OT) : OT :=
  match end_, sunriseL with
  | some e, some sr =>
    if e < sr + 30 * 60 ∨ sr + 90 * 60 < e then some (sr + 30 * 60) else some e
  | _, _ => end_

/-- The `VM01 … avond` block. -/
def vm01AvondBlock (proj dagdeel : String) (sunsetL : OT) (p : OT × OT) : OT × OT :=
  if isVM01 proj && startsAvond dagdeel then
    (vm01AvondStart sunsetL p.1, vm01AvondEnd sunsetL p.2)
  else p

/-- The `VM01 … ochtend` block (the source adjusts the end first, then the
start; the two are independent). -/
def vm01OchtendBlock (proj dagdeel : String) (sunriseL : OT) (p : OT × OT) : OT × OT :=
  if isVM01 proj && startsOchtend dagdeel then
    (vm01OchtendStart sunriseL p.1, vm01OchtendEnd sunriseL p.2)
  else p

/-- The `VM02 … avond` block: start clock clamp, then midnight rollover
against the clamped start, then end clock clamp. -/
def vm02Block (proj dagdeel : String) (p : OT × OT) : OT × OT :=
  if isVM02 proj && startsAvond dagdeel then
    (vm02Start p.1, vm02EndClamp (vm02Roll (vm02Start p.1) p.2))
  else p

/-- The GZ block (fires on any code containing `GZ`). -/
def gzBlock (proj : String) (sunsetL : OT) (p : OT × OT) : OT × OT :=
  if hasGZ proj then (gzStart sunsetL p.1, gzEnd sunsetL p.2) else p

/-- The ZR block (fires on any code containing `ZR`). -/
def zrBlock (proj : String) (sunriseL : OT) (p : OT × OT) : OT × OT :=
  if hasZR proj then (zrStart sunriseL p.1, zrEnd sunriseL p.2) else p

/-- The five rule blocks in the source's order. -/
def suggestPair (proj dagdeel : String) (sunriseL sunsetL : OT) (p : OT × OT) : OT × OT :=
  zrBlock proj sunriseL
    (gzBlock proj sunsetL
      (vm02Block proj dagdeel
        (vm01OchtendBlock proj dagdeel sunriseL
          (vm01AvondBlock proj dagdeel sunsetL p))))

/-- `duration = (end - start).total_seconds() / 3600.0` when both are
present, else the missing sentinel. -/
def durOf (p : OT × OT) : Option ℚ :=
  match p.1, p.2 with
  | some s, some e => some (((e - s : Int) : ℚ) / 3600)
  | _, _ => none

/-- The engine's per-row output: suggested start, suggested end, suggested
duration in hours. -/
structure SuggestResult where
  start : OT
  end_ : OT
  dur : Option ℚ
deriving DecidableEq, Repr

/-- Embedding of one row of `get_fieldvisit_time_suggest`: given project
code, day part, reported start/end (parsed local) and the local
sunrise/sunset anchors, produce the suggested start, end and duration. -/
def get_fieldvisit_time_suggest (proj dagdeel : String)
    (start end_ sunriseL sunsetL : OT) : SuggestResult :=
  let p := suggestPair proj dagdeel sunriseL sunsetL (start, end_)
  ⟨p.1, p.2, durOf p⟩

/-! ## Manual-Review Flagger

Embedding of `flag_fieldtime_changes` for one record.  The name column to
inspect falls back from `Naam_schoon` to `Naam` to a constant empty
string; a missing (null) value in the chosen column is filled with `""`.
The flag is `"yes"` iff the project code starts with `VM03`
(case-insensitively), or sunrise or sunset is missing, or the chosen name
strips to blank. -/

/-- The name value the flagger checks: the `Naam_schoon` column when that
column exists, else the `Naam` column, else a constant `""`.  The outer
`Option` is column existence, the inner one nullness of the value. -/
def nameToCheck (naamSchoonCol naamCol : Option (Option String)) : Option String :=
  match naamSchoonCol with
  | some v => v
  | none =>
    match naamCol with
    | some v => v
    | none => some ""

/-- The code starts with `VM03`, case-insensitively (`str.contains(r"^VM03",
case=False)` on the null-filled code). -/
def startsVM03 (proj : String) : Bool := startsL ("VM03".toList) ((upperStr proj).toList)

/-- Embedding of one record of `flag_fieldtime_changes`. -/
def flag_fieldtime_changes (project : Option String) (sunrise sunset : OT)
    (naamSchoonCol naamCol : Option (Option String)) : String :=
  let naamMissing := decide (String.mk (stripL (((nameToCheck naamSchoonCol naamCol).getD "").toList)) = "")
  let checkMask := startsVM03 (project.getD "") || sunrise.isNone || sunset.isNone || naamMissing
  if checkMask then "yes" else "no"

/-! ## Timestamp Normalizer

Embedding of `parse_local` / `to_local` on timestamp inputs (the
`pd.Timestamp` and `datetime` branches coincide; string parsing is a
front-end to the same two branches and is outside the claims).  A naive
timestamp is a bare wall-clock reading; an aware one is a UTC instant.
The target timezone is modelled abstractly by its two offset maps: the
offset pytz attaches when localizing a naive wall time (`tz.localize`),
and the offset of a UTC instant when converting into the zone
(`astimezone` / `tz_convert`); both in seconds. -/

/-- An abstract civil timezone. -/
structure TzModel where
  fromWall : Int → Int
  fromUtc : Int → Int

/-- A Python timestamp input: naive (no tzinfo) or aware. -/
inductive PyTimestamp where
  | naive (wall : Int)
  | aware (utc : Int)
deriving DecidableEq, Repr

/-- A timezone-aware result: the UTC instant it denotes and the local
wall-clock it displays. -/
structure AwareDT where
  utc : Int
  wall : Int
deriving DecidableEq, Repr

/-- `parse_local`: a naive timestamp is localized in place
(`tz.localize` keeps the wall-clock fields and derives the instant); an
aware one is converted to the target zone. -/
def parse_local (tz : TzModel) : PyTimestamp → Option AwareDT
  | .naive w => some ⟨w - tz.fromWall w, w⟩
  | .aware i => some ⟨i, i + tz.fromUtc i⟩

/-- `to_local`: a naive timestamp is first localized as UTC
(`pytz.UTC.localize`), then converted to the target zone; an aware one is
converted directly. -/
def to_local (tz : TzModel) : PyTimestamp → Option AwareDT
  | .naive w => some ⟨w, w + tz.fromUtc w⟩
  | .aware i => some ⟨i, i + tz.fromUtc i⟩

/-! ## Fallback solar estimator — branch structure

Embedding of the tail of `_fallback_sunrise_sunset`.  The float
trigonometry that produces `some_cos` (cosine of the hour angle) and
`J_transit` (solar-transit Julian date) is abstracted into exact rational
parameters; the arccos output `w0_deg = degrees(acos(some_cos))` is a
parameter too, carried with its mathematical range `0 ≤ w0_deg` (arccos
lands in `[0, π]`, hence degrees in `[0, 180]`) as a hypothesis of the
theorems.  The Julian-to-local conversion chain
(`_ts_from_julian`, `utcfromtimestamp`, `astimezone`) is the strictly
monotone affine map below (`off` = the zone's offset in seconds). -/

/-- Julian date to local seconds: `(j - 2440587.5) * 86400` plus the
zone offset. -/
def julianToLocal (off : ℚ) (j : ℚ) : ℚ := (j - 2440587.5) * 86400 + off

/-- The branch on the cosine of the hour angle: polar day
(`some_cos ≤ -1`) keeps a sunrise of transit minus half a day and no
sunset; polar night (`some_cos ≥ 1`) drops both; otherwise transit ∓
hour-angle-in-days. -/
def fallbackBranch (someCos Jtransit w0deg : ℚ) : Option ℚ × Option ℚ :=
  if someCos ≤ -1 then (some (Jtransit - 0.5), none)
  else if 1 ≤ someCos then (none, none)
  else (some (Jtransit - w0deg / 360), some (Jtransit + w0deg / 360))

/-- Embedding of `_fallback_sunrise_sunset`'s output: the branch result
converted to local time. -/
def fallback_sunrise_sunset (someCos Jtransit w0deg off : ℚ) : Option ℚ × Option ℚ :=
  let p := fallbackBranch someCos Jtransit w0deg
  (p.1.map (julianToLocal off), p.2.map (julianToLocal off))

/-- The orderings the claim asserts of an output pair: when both are
present, sunrise ≤ sunset; a missing sunrise never comes with a present
sunset. -/
def sunPairOrdered (p : Option ℚ × Option ℚ) : Bool :=
  match p with
  | (some a, some b) => a ≤ b
  | (none, some _) => false
  | _ => true

/-! ## Claim-side (spec-worded) definitions

For the refinement-style claims these definitions transcribe the claim's
own words; the theorems compare them with the embeddings above. -/

/-- C2's wording, start step: a start whose clock time lies outside
`[22:59, 23:59]` is replaced by 23:59 on the same date. -/
def c2SpecStart (st : Int) : Int :=
  if 1379 ≤ clockMin st ∧ clockMin st ≤ 1439 then st
  else st - st % 86400 + 1439 * 60

/-- C2's wording, rollover step: if end ≤ start, add one day to end,
exactly once. -/
def c2SpecRoll (st e : Int) : Int := if e ≤ st then e + 86400 else e

/-- C2's wording, end step: a clock time below 02:00 is replaced by
02:00, one above 03:00 by 03:00, the date unchanged. -/
def c2SpecEnd (e : Int) : Int :=
  if clockMin e < 120 then e - e % 86400 + 120 * 60
  else if 180 < clockMin e then e - e % 86400 + 180 * 60
  else e

/-- C4's wording, start: a start outside `[sunset-1h, sunset]` becomes
sunset; one inside is unchanged. -/
def c4SpecStart (ss st : Int) : Int :=
  if ss - 3600 ≤ st ∧ st ≤ ss then st else ss

/-- C4's wording, end: an end outside `[sunset+3h, sunset+4h]` becomes
sunset+3h; one inside is unchanged. -/
def c4SpecEnd (ss e : Int) : Int :=
  if ss + 10800 ≤ e ∧ e ≤ ss + 14400 then e else ss + 10800

/-- C6's wording, start: a start outside `[sunset-150min, sunset-90min]`
is replaced by sunset-90min. -/
def c6SpecStart (ss st : Int) : Int :=
  if ss - 9000 ≤ st ∧ st ≤ ss - 5400 then st else ss - 5400

/-- C6's wording, end: an end outside `[sunset+30min, sunset+90min]` is
replaced by sunset+30min. -/
def c6SpecEnd (ss e : Int) : Int :=
  if ss + 1800 ≤ e ∧ e ≤ ss + 5400 then e else ss + 1800

/-- C8's claimed closed set of protocol codes: VM01, VM02, VM03,
VM0N with N ≥ 4 (zero-padded two-digit VM codes), GZ, ZR, HM,
UITVLIEGTELLING. -/
def claimedCode (c : String) : Bool :=
  c == "GZ" || c == "ZR" || c == "HM" || c == "UITVLIEGTELLING" ||
  (match c.toList with
   | ['V', 'M', '0', d] => isDigitC d
   | _ => false)

/-- The codes the extractor can actually emit (C8 amended): the four
literal codes, or `VM`/`ZM`/`HM` followed by one or more digits. -/
def codeShape (c : String) : Bool :=
  c == "GZ" || c == "ZR" || c == "HM" || c == "UITVLIEGTELLING" ||
  (match c.toList with
   | p1 :: p2 :: rest =>
     (p1 == 'V' || p1 == 'Z' || p1 == 'H') && p2 == 'M' && !rest.isEmpty && allDigits rest
   | _ => false)

/-- Shape of a raw match of the code pattern: one of the four literal
alternatives, or `[vzwh]` `m` optional separator and a nonempty digit
run. -/
def altShape (m : List Char) : Bool :=
  m == ['g', 'z'] || m == ['z', 'r'] || m == ['h', 'm'] || m == "uitvliegtelling".toList ||
  (match m with
   | c0 :: c1 :: t =>
     isCodeLetter c0 && c1 == 'm' &&
       (match t with
        | c2 :: t2 => (isSepC c2 && !t2.isEmpty && allDigits t2) || (isDigitC c2 && allDigits t2)
        | [] => false)
   | _ => false)

/-! ## Theorems -/

/-- C3 counterexample: on the name `"WM1 Ochtend II"` the extractor does
not return protocol code `"VM01"` — the zero-padding check
`re.match(r"VM(\d)$", …)` runs before the `WM → VM` rewrite, so `WM1`
misses the padding. -/
theorem c3_counterexample :
    (_extract_project_and_daypart (some "WM1 Ochtend II")).1 ≠ some "VM01" := by
  decide

/-- C3 (amended): `extract("WM1 Ochtend II")` returns protocol code
`"VM1"` (the WM prefix is rewritten to VM, but the single digit is not
zero-padded, because the padding test precedes the rewrite and `WM1` does
not match `VM(\d)$`) and day-part `"ochtend 2"` (Roman numeral II after
`ochtend` normalised to 2). -/
theorem c3_extract_wm1 :
    _extract_project_and_daypart (some "WM1 Ochtend II") = (some "VM1", some "ochtend 2") := by
  decide

/-- C7: the manual-review flag is `"yes"` iff the protocol code starts
with `VM03` (case-insensitively), or sunrise is missing, or sunset is
missing, or the checked display name (the cleaned name, falling back to
the raw name and then to the empty string) strips to blank; in
particular a record with code `"VM03X"`, both sun times and a nonblank
name is flagged `"yes"`, and one with code `"VM01"`, both sun times and a
nonblank name is flagged `"no"`. -/
theorem c7_flagger :
    (∀ (project : Option String) (sunrise sunset : OT)
        (naamSchoonCol naamCol : Option (Option String)),
      flag_fieldtime_changes project sunrise sunset naamSchoonCol naamCol = "yes" ↔
        (startsVM03 (project.getD "") = true ∨ sunrise = none ∨ sunset = none ∨
          String.mk (stripL (((nameToCheck naamSchoonCol naamCol).getD "").toList)) = "")) ∧
    flag_fieldtime_changes (some "VM03X") (some 0) (some 0)
      (some (some "naam")) (some (some "naam")) = "yes" ∧
    flag_fieldtime_changes (some "VM01") (some 0) (some 0)
      (some (some "naam")) (some (some "naam")) = "no" := by
  refine ⟨?_, by decide, by decide⟩
  intro project sunrise sunset naamSchoonCol naamCol
  unfold flag_fieldtime_changes
  dsimp only
  split_ifs with h
  · simp only [Bool.or_eq_true, Option.isNone_iff_eq_none, decide_eq_true_eq] at h
    exact iff_of_true rfl (by tauto)
  · simp only [Bool.or_eq_true, Option.isNone_iff_eq_none, decide_eq_true_eq] at h
    exact iff_of_false (by decide) (fun hc => h (by tauto))

/-- C9: a naive timestamp is kept at its wall-clock fields by
`parse_local` (localized in place), while `to_local` reads it as a UTC
instant and converts it — i.e. `to_local` of a naive value agrees with
`parse_local` of the same value marked as UTC-aware; on aware timestamps
the two functions agree. -/
theorem c9_normalizers :
    ∀ (tz : TzModel) (w i : Int),
      ((parse_local tz (.naive w)).map AwareDT.wall = some w ∧
        parse_local tz (.naive w) = some ⟨w - tz.fromWall w, w⟩) ∧
      to_local tz (.naive w) = parse_local tz (.aware w) ∧
      parse_local tz (.aware i) = to_local tz (.aware i) := by
  intro tz w i
  exact ⟨⟨rfl, rfl⟩, rfl, rfl⟩

/-- C10: the engine can output a negative suggested duration: for a VM02
evening record with reported start 23:30 and end 23:45 of the same day
(day 0 of the local axis), the midnight rollover does not fire (end >
start) but the end clock-clamp rewrites the end to 03:00 of the same
day, before the start — the suggested duration is exactly -20.5 hours. -/
theorem c10_negative_duration :
    (get_fieldvisit_time_suggest "VM02" "avond" (some 84600) (some 85500) none none).end_ =
      some 10800 ∧
    (get_fieldvisit_time_suggest "VM02" "avond" (some 84600) (some 85500) none none).dur =
      some (((10800 - 84600 : Int) : ℚ) / 3600) ∧
    (((10800 - 84600 : Int) : ℚ) / 3600 = -(41 : ℚ) / 2) ∧
    (((10800 - 84600 : Int) : ℚ) / 3600 < 0) := by
  refine ⟨by decide, by rfl, by norm_num, by norm_num⟩

/-- C1 counterexample: the engine is not idempotent.  For the VM02
evening record with start 23:30 and end 23:45 of the same day, the first
application clamps the end to 03:00 of that day (before the start), and a
second application on the suggested values then fires the midnight
rollover and moves the end one day forward. -/
theorem c1_counterexample :
    (let r := get_fieldvisit_time_suggest "VM02" "avond" (some 84600) (some 85500) none none
     get_fieldvisit_time_suggest "VM02" "avond" r.start r.end_ none none ≠ r) := by
  decide

/-- C5: the fallback solar estimator's branch on the cosine of the hour
angle, with the arccos output in its mathematical range `w0deg ≥ 0`,
returns an ordered pair: polar day (`some_cos ≤ -1`) gives sunrise =
transit minus half a day and no sunset; polar night (`some_cos ≥ 1`)
gives both null; otherwise both ends are present with sunrise ≤ sunset;
and a null sunrise never comes with a non-null sunset. -/
theorem c5_fallback_branch :
    ∀ someCos Jtransit w0deg off : ℚ, 0 ≤ w0deg →
      sunPairOrdered (fallback_sunrise_sunset someCos Jtransit w0deg off) = true ∧
      (someCos ≤ -1 →
        fallback_sunrise_sunset someCos Jtransit w0deg off =
          (some (julianToLocal off (Jtransit - 0.5)), none)) ∧
      (1 ≤ someCos →
        fallback_sunrise_sunset someCos Jtransit w0deg off = (none, none)) ∧
      (-1 < someCos → someCos < 1 →
        fallback_sunrise_sunset someCos Jtransit w0deg off =
          (some (julianToLocal off (Jtransit - w0deg / 360)),
            some (julianToLocal off (Jtransit + w0deg / 360)))) := by
  intro someCos Jtransit w0deg off hw
  unfold fallback_sunrise_sunset fallbackBranch
  split_ifs with h1 h2
  · refine ⟨rfl, fun _ => rfl, fun hc => absurd hc (by linarith), fun hc _ => absurd h1 (by linarith)⟩
  · refine ⟨rfl, fun hc => absurd hc h1, fun _ => rfl, fun _ hc => absurd hc (by linarith)⟩
  · refine ⟨?_, fun hc => absurd hc h1, fun hc => absurd hc h2, fun _ _ => rfl⟩
    simp only [sunPairOrdered, Option.map_some', decide_eq_true_eq]
    unfold julianToLocal
    linarith

/-- C5 witness: the generic-day branch at `some_cos = 0`, `w0deg = 90`. -/
theorem c5_witness :
    (0 : ℚ) ≤ 90 ∧
    fallback_sunrise_sunset 0 0 90 0 =
      (some (julianToLocal 0 (0 - 90 / 360)), some (julianToLocal 0 (0 + 90 / 360))) :=
  ⟨by norm_num, (c5_fallback_branch 0 0 90 0 (by norm_num)).2.2.2 (by norm_num) (by norm_num)⟩

/-! ### String-guard helper lemmas -/

theorem startsL_head {a : Char} {as l : List Char} (h : startsL (a :: as) l = true) :
    ∃ tl, l = a :: tl := by
  cases l with
  | nil => exact absurd h (by simp [startsL])
  | cons b bs =>
    unfold startsL at h
    rcases Bool.and_eq_true_iff.mp h with ⟨h1, _⟩
    exact ⟨bs, by rw [eq_of_beq h1]⟩

theorem avond_not_ochtend {d : String} (h : startsAvond d = true) : startsOchtend d = false := by
  unfold startsAvond at h
  rw [show ("avond".toList) = 'a' :: ['v', 'o', 'n', 'd'] from rfl] at h
  obtain ⟨tl, htl⟩ := startsL_head h
  unfold startsOchtend
  rw [show ("ochtend".toList) = 'o' :: ['c', 'h', 't', 'e', 'n', 'd'] from rfl, htl]
  show (('o' == 'a') && startsL ['c', 'h', 't', 'e', 'n', 'd'] tl) = false
  rw [show (('o' : Char) == 'a') = false from rfl, Bool.false_and]

theorem ochtend_not_avond {d : String} (h : startsOchtend d = true) : startsAvond d = false := by
  unfold startsOchtend at h
  rw [show ("ochtend".toList) = 'o' :: ['c', 'h', 't', 'e', 'n', 'd'] from rfl] at h
  obtain ⟨tl, htl⟩ := startsL_head h
  unfold startsAvond
  rw [show ("avond".toList) = 'a' :: ['v', 'o', 'n', 'd'] from rfl, htl]
  show (('a' == 'o') && startsL ['v', 'o', 'n', 'd'] tl) = false
  rw [show (('a' : Char) == 'o') = false from rfl, Bool.false_and]

theorem upper_of_isVM01 {proj : String} (h : isVM01 proj = true) : upperStr proj = "VM01" :=
  of_decide_eq_true h

theorem upper_of_isVM02 {proj : String} (h : isVM02 proj = true) : upperStr proj = "VM02" :=
  of_decide_eq_true h

theorem isVM02_of_VM01 {proj : String} (h : isVM01 proj = true) : isVM02 proj = false := by
  unfold isVM02
  exact decide_eq_false (by rw [upper_of_isVM01 h]; decide)

theorem isVM01_of_VM02 {proj : String} (h : isVM02 proj = true) : isVM01 proj = false := by
  unfold isVM01
  exact decide_eq_false (by rw [upper_of_isVM02 h]; decide)

theorem hasGZ_of_VM01 {proj : String} (h : isVM01 proj = true) : hasGZ proj = false := by
  unfold hasGZ
  rw [upper_of_isVM01 h]
  decide

theorem hasZR_of_VM01 {proj : String} (h : isVM01 proj = true) : hasZR proj = false := by
  unfold hasZR
  rw [upper_of_isVM01 h]
  decide

theorem hasGZ_of_VM02 {proj : String} (h : isVM02 proj = true) : hasGZ proj = false := by
  unfold hasGZ
  rw [upper_of_isVM02 h]
  decide

theorem hasZR_of_VM02 {proj : String} (h : isVM02 proj = true) : hasZR proj = false := by
  unfold hasZR
  rw [upper_of_isVM02 h]
  decide

/-! ### Engine reduction lemmas: with the guards of a record resolved,
the five-block chain collapses to its one active block. -/

theorem suggestPair_vm01_avond {proj dagdeel : String} (h : isVM01 proj = true)
    (ha : startsAvond dagdeel = true) (sr ss : OT) (p : OT × OT) :
    suggestPair proj dagdeel sr ss p = vm01AvondBlock proj dagdeel ss p := by
  simp [suggestPair, zrBlock, gzBlock, vm02Block, vm01OchtendBlock,
    hasZR_of_VM01 h, hasGZ_of_VM01 h, isVM02_of_VM01 h, avond_not_ochtend ha]

theorem suggestPair_vm01_ochtend {proj dagdeel : String} (h : isVM01 proj = true)
    (ho : startsOchtend dagdeel = true) (sr ss : OT) (p : OT × OT) :
    suggestPair proj dagdeel sr ss p = vm01OchtendBlock proj dagdeel sr p := by
  simp [suggestPair, zrBlock, gzBlock, vm02Block, vm01AvondBlock,
    hasZR_of_VM01 h, hasGZ_of_VM01 h, isVM02_of_VM01 h, ochtend_not_avond ho]

theorem suggestPair_vm02 {proj : String} (h : isVM02 proj = true)
    (dagdeel : String) (sr ss : OT) (p : OT × OT) :
    suggestPair proj dagdeel sr ss p = vm02Block proj dagdeel p := by
  simp [suggestPair, zrBlock, gzBlock, vm01AvondBlock, vm01OchtendBlock,
    hasZR_of_VM02 h, hasGZ_of_VM02 h, isVM01_of_VM02 h]

/-! ### VM02 stage agreement with C2's wording -/

theorem vm02Start_spec (st : Int) : vm02Start (some st) = some (c2SpecStart st) := by
  unfold vm02Start c2SpecStart
  dsimp only
  split_ifs <;> first
    | rfl
    | (exfalso; omega)
    | (simp only [update_time, Option.some.injEq]; omega)

theorem vm02Roll_spec (st e : Int) :
    vm02Roll (some st) (some e) = some (c2SpecRoll st e) := by
  unfold vm02Roll c2SpecRoll
  dsimp only
  split_ifs <;> rfl

theorem vm02EndClamp_spec (e : Int) : vm02EndClamp (some e) = some (c2SpecEnd e) := by
  unfold vm02EndClamp c2SpecEnd
  dsimp only
  split_ifs <;> first
    | rfl
    | (exfalso; omega)
    | (simp only [update_time, Option.some.injEq]; omega)

/-- C2: for every VM02 evening record with non-null start, the engine
first clamps the start's clock time into `[22:59, 23:59]` (snapping to
23:59 on the same date), then — against the clamped start — adds one day
to a non-null end at most once (exactly when end ≤ start), then clamps
the end's clock time into `[02:00, 03:00]` with the date unchanged; a
null end stays null. -/
theorem c2_vm02_evening :
    ∀ (proj dagdeel : String) (st : Int) (end0 sunriseL sunsetL : OT),
      isVM02 proj = true → startsAvond dagdeel = true →
      (get_fieldvisit_time_suggest proj dagdeel (some st) end0 sunriseL sunsetL).start =
        some (c2SpecStart st) ∧
      (get_fieldvisit_time_suggest proj dagdeel (some st) end0 sunriseL sunsetL).end_ =
        end0.map (fun e => c2SpecEnd (c2SpecRoll (c2SpecStart st) e)) := by
  intro proj dagdeel st end0 sr ss h2 ha
  unfold get_fieldvisit_time_suggest
  rw [suggestPair_vm02 h2 dagdeel sr ss]
  unfold vm02Block
  rw [h2, ha]
  simp only [Bool.and_self, if_true]
  constructor
  · exact vm02Start_spec st
  · cases end0 with
    | none =>
      rw [vm02Start_spec st]
      rfl
    | some e =>
      rw [vm02Start_spec st, vm02Roll_spec, vm02EndClamp_spec]
      rfl

/-- C2 witness: VM02 evening, start 23:30 (day 0), end 02:30 the next
day — both returned unchanged, no double increment. -/
theorem c2_vm02_evening_witness :
    isVM02 "VM02" = true ∧ startsAvond "avond" = true ∧
    (get_fieldvisit_time_suggest "VM02" "avond" (some 84600) (some 95400) none none).start =
      some 84600 ∧
    (get_fieldvisit_time_suggest "VM02" "avond" (some 84600) (some 95400) none none).end_ =
      some 95400 := by
  have h := c2_vm02_evening "VM02" "avond" 84600 (some 95400) none none (by decide) (by decide)
  refine ⟨by decide, by decide, ?_, ?_⟩
  · rw [h.1]; decide
  · rw [h.2]; decide

/-- C4 counterexample: a VM01 evening record with a null reported start
and a non-null sunset keeps the null start — the engine's guard
`if start and sunset_local:` skips null values, so the suggested start is
not sunset as the claim requires. -/
theorem c4_counterexample :
    (get_fieldvisit_time_suggest "VM01" "avond" none none none (some 72000)).start = none ∧
    (get_fieldvisit_time_suggest "VM01" "avond" none none none (some 72000)).start ≠
      some 72000 := by
  refine ⟨by decide, by decide⟩

/-- C4 (amended): for every VM01 evening record with a non-null sunset
anchor, a non-null reported start outside `[sunset-1h, sunset]` is
replaced by sunset and one inside is unchanged; a non-null reported end
outside `[sunset+3h, sunset+4h]` is replaced by sunset+3h and one inside
is unchanged; a null reported start or end stays null. -/
theorem c4_vm01_evening :
    ∀ (proj dagdeel : String) (start0 end0 sunriseL : OT) (ss : Int),
      isVM01 proj = true → startsAvond dagdeel = true →
      (get_fieldvisit_time_suggest proj dagdeel start0 end0 sunriseL (some ss)).start =
        start0.map (c4SpecStart ss) ∧
      (get_fieldvisit_time_suggest proj dagdeel start0 end0 sunriseL (some ss)).end_ =
        end0.map (c4SpecEnd ss) := by
  intro proj dagdeel start0 end0 sr ss h ha
  unfold get_fieldvisit_time_suggest
  rw [suggestPair_vm01_avond h ha sr (some ss)]
  unfold vm01AvondBlock
  rw [h, ha]
  simp only [Bool.and_self, if_true]
  constructor
  · cases start0 with
    | none => rfl
    | some st =>
      unfold vm01AvondStart c4SpecStart
      dsimp only [Option.map_some']
      split_ifs <;> first
        | rfl
        | (exfalso; omega)
        | (simp only [Option.some.injEq]; omega)
  · cases end0 with
    | none => rfl
    | some e =>
      unfold vm01AvondEnd c4SpecEnd
      dsimp only [Option.map_some']
      split_ifs <;> first
        | rfl
        | (exfalso; omega)
        | (simp only [Option.some.injEq]; omega)

/-- C4 witness: VM01 evening with sunset 20:00 (day 0): a reported start
of 19:50 is unchanged (inside the window) and one of 18:00 is corrected
to 20:00; null start and end stay null. -/
theorem c4_vm01_evening_witness :
    isVM01 "VM01" = true ∧ startsAvond "avond" = true ∧
    (get_fieldvisit_time_suggest "VM01" "avond" (some 71400) none none (some 72000)).start =
      some 71400 ∧
    (get_fieldvisit_time_suggest "VM01" "avond" (some 64800) none none (some 72000)).start =
      some 72000 := by
  have h1 := c4_vm01_evening "VM01" "avond" (some 71400) none none 72000 (by decide) (by decide)
  have h2 := c4_vm01_evening "VM01" "avond" (some 64800) none none 72000 (by decide) (by decide)
  refine ⟨by decide, by decide, ?_, ?_⟩
  · rw [h1.1]; decide
  · rw [h2.1]; decide

/-- C6: the engine's GZ rule (which fires on any code containing `GZ`,
case-insensitively, composite codes included): with a non-null sunset
anchor, a non-null start outside `[sunset-150min, sunset-90min]` is
replaced by sunset-90min and a non-null end outside
`[sunset+30min, sunset+90min]` is replaced by sunset+30min, values inside
their windows staying unchanged and null values staying null; with a null
sunset anchor the rule leaves start and end unchanged. -/
theorem c6_gz_rule :
    ∀ (proj : String) (start0 end0 : OT) (ss : Int),
      hasGZ proj = true →
      gzBlock proj (some ss) (start0, end0) =
        (start0.map (c6SpecStart ss), end0.map (c6SpecEnd ss)) ∧
      gzBlock proj none (start0, end0) = (start0, end0) := by
  intro proj start0 end0 ss h
  unfold gzBlock
  rw [h]
  simp only [if_true]
  constructor
  · simp only [Prod.mk.injEq]
    constructor
    · cases start0 with
      | none => rfl
      | some st =>
        unfold gzStart c6SpecStart
        dsimp only [Option.map_some']
        split_ifs <;> first
          | rfl
          | (exfalso; omega)
          | (simp only [Option.some.injEq]; omega)
    · cases end0 with
      | none => rfl
      | some e =>
        unfold gzEnd c6SpecEnd
        dsimp only [Option.map_some']
        split_ifs <;> first
          | rfl
          | (exfalso; omega)
          | (simp only [Option.some.injEq]; omega)
  · cases start0 <;> cases end0 <;> rfl

/-- C6 witness: code `GZ` with sunset 21:00 (day 0) and reported end
21:10 — the end is corrected to 21:30 = sunset+30min; with a null sunset
the pair is unchanged. -/
theorem c6_gz_rule_witness :
    hasGZ "GZ" = true ∧
    gzBlock "GZ" (some 75600) (none, some 76200) = (none, some 77400) ∧
    gzBlock "GZ" none (none, some 76200) = (none, some 76200) := by
  have h := c6_gz_rule "GZ" none (some 76200) 75600 (by decide)
  refine ⟨by decide, ?_, h.2⟩
  rw [h.1]; decide

/-! ### Idempotence of the individual clamps

Each window clamp maps values outside its window to a snap value that
itself lies inside the window, so reapplying the same clamp changes
nothing. -/

theorem vm01AvondStart_idem (ssL s : OT) :
    vm01AvondStart ssL (vm01AvondStart ssL s) = vm01AvondStart ssL s := by
  cases s with
  | none => cases ssL <;> rfl
  | some st =>
    cases ssL with
    | none => rfl
    | some v =>
      unfold vm01AvondStart
      dsimp only
      split_ifs with h1
      · dsimp only
        split_ifs <;> rfl
      · dsimp only
        split_ifs <;> rfl

theorem vm01AvondEnd_idem (ssL e : OT) :
    vm01AvondEnd ssL (vm01AvondEnd ssL e) = vm01AvondEnd ssL e := by
  cases e with
  | none => cases ssL <;> rfl
  | some ev =>
    cases ssL with
    | none => rfl
    | some v =>
      unfold vm01AvondEnd
      dsimp only
      split_ifs with h1
      · dsimp only
        split_ifs <;> rfl
      · dsimp only
        split_ifs <;> rfl

theorem vm01OchtendStart_idem (srL s : OT) :
    vm01OchtendStart srL (vm01OchtendStart srL s) = vm01OchtendStart srL s := by
  cases s with
  | none => cases srL <;> rfl
  | some st =>
    cases srL with
    | none => rfl
    | some v =>
      unfold vm01OchtendStart
      dsimp only
      split_ifs with h1
      · dsimp only
        split_ifs <;> rfl
      · dsimp only
        split_ifs <;> rfl

theorem vm01OchtendEnd_idem (srL e : OT) :
    vm01OchtendEnd srL (vm01OchtendEnd srL e) = vm01OchtendEnd srL e := by
  cases e with
  | none => cases srL <;> rfl
  | some ev =>
    cases srL with
    | none => rfl
    | some v =>
      unfold vm01OchtendEnd
      dsimp only
      split_ifs with h1
      · dsimp only
        split_ifs <;> rfl
      · dsimp only
        split_ifs <;> rfl

theorem gzStart_idem (ssL s : OT) : gzStart ssL (gzStart ssL s) = gzStart ssL s := by
  cases s with
  | none => cases ssL <;> rfl
  | some st =>
    cases ssL with
    | none => rfl
    | some v =>
      unfold gzStart
      dsimp only
      split_ifs with h1
      · dsimp only
        split_ifs <;> rfl
      · dsimp only
        split_ifs <;> rfl

theorem gzEnd_idem (ssL e : OT) : gzEnd ssL (gzEnd ssL e) = gzEnd ssL e := by
  cases e with
  | none => cases ssL <;> rfl
  | some ev =>
    cases ssL with
    | none => rfl
    | some v =>
      unfold gzEnd
      dsimp only
      split_ifs with h1
      · dsimp only
        split_ifs <;> rfl
      · dsimp only
        split_ifs <;> rfl

theorem zrStart_idem (srL s : OT) : zrStart srL (zrStart srL s) = zrStart srL s := by
  cases s with
  | none => cases srL <;> rfl
  | some st =>
    cases srL with
    | none => rfl
    | some v =>
      unfold zrStart
      dsimp only
      split_ifs with h1
      · dsimp only
        split_ifs <;> rfl
      · dsimp only
        split_ifs <;> rfl

theorem zrEnd_idem (srL e : OT) : zrEnd srL (zrEnd srL e) = zrEnd srL e := by
  cases e with
  | none => cases srL <;> rfl
  | some ev =>
    cases srL with
    | none => rfl
    | some v =>
      unfold zrEnd
      dsimp only
      split_ifs with h1
      · dsimp only
        split_ifs <;> rfl
      · dsimp only
        split_ifs <;> rfl

theorem vm02Start_none : vm02Start none = none := rfl

theorem vm02EndClamp_none : vm02EndClamp none = none := rfl

theorem vm02Roll_none_left (e : OT) : vm02Roll none e = e := by cases e <;> rfl

theorem vm02Roll_none_right (s : OT) : vm02Roll s none = none := by cases s <;> rfl

theorem vm02Start_idem (s : OT) : vm02Start (vm02Start s) = vm02Start s := by
  cases s with
  | none => rfl
  | some st =>
    unfold vm02Start
    dsimp only
    split_ifs with h1
    · dsimp only
      have hc : ¬(clockMin (update_time st 23 59 0) < 22 * 60 + 59 ∨
          23 * 60 + 59 < clockMin (update_time st 23 59 0)) := by
        unfold clockMin hourOf minuteOf update_time
        omega
      rw [if_neg hc]
    · dsimp only
      rw [if_neg h1]

theorem vm02EndClamp_idem (e : OT) : vm02EndClamp (vm02EndClamp e) = vm02EndClamp e := by
  cases e with
  | none => rfl
  | some ev =>
    unfold vm02EndClamp
    dsimp only
    split_ifs with h1 h2
    · dsimp only
      have hc1 : ¬(clockMin (update_time ev 2 0 0) < 2 * 60) := by
        unfold clockMin hourOf minuteOf update_time
        omega
      have hc2 : ¬(3 * 60 < clockMin (update_time ev 2 0 0)) := by
        unfold clockMin hourOf minuteOf update_time
        omega
      rw [if_neg hc1, if_neg hc2]
    · dsimp only
      have hc1 : ¬(clockMin (update_time ev 3 0 0) < 2 * 60) := by
        unfold clockMin hourOf minuteOf update_time
        omega
      have hc2 : ¬(3 * 60 < clockMin (update_time ev 3 0 0)) := by
        unfold clockMin hourOf minuteOf update_time
        omega
      rw [if_neg hc1, if_neg hc2]
    · dsimp only
      rw [if_neg h1, if_neg h2]

/-! ### Idempotence of the rule blocks -/

theorem vm01AvondBlock_idem (proj dagdeel : String) (ssL : OT) (p : OT × OT) :
    vm01AvondBlock proj dagdeel ssL (vm01AvondBlock proj dagdeel ssL p) =
      vm01AvondBlock proj dagdeel ssL p := by
  unfold vm01AvondBlock
  split_ifs with hg
  · dsimp only
    rw [vm01AvondStart_idem, vm01AvondEnd_idem]
  · rfl

theorem vm01OchtendBlock_idem (proj dagdeel : String) (srL : OT) (p : OT × OT) :
    vm01OchtendBlock proj dagdeel srL (vm01OchtendBlock proj dagdeel srL p) =
      vm01OchtendBlock proj dagdeel srL p := by
  unfold vm01OchtendBlock
  split_ifs with hg
  · dsimp only
    rw [vm01OchtendStart_idem, vm01OchtendEnd_idem]
  · rfl

theorem gzBlock_idem (proj : String) (ssL : OT) (p : OT × OT) :
    gzBlock proj ssL (gzBlock proj ssL p) = gzBlock proj ssL p := by
  unfold gzBlock
  split_ifs with hg
  · dsimp only
    rw [gzStart_idem, gzEnd_idem]
  · rfl

theorem zrBlock_idem (proj : String) (srL : OT) (p : OT × OT) :
    zrBlock proj srL (zrBlock proj srL p) = zrBlock proj srL p := by
  unfold zrBlock
  split_ifs with hg
  · dsimp only
    rw [zrStart_idem, zrEnd_idem]
  · rfl

theorem vm02Block_idem_of_none (proj dagdeel : String) (p : OT × OT)
    (h : p.1 = none ∨ p.2 = none) :
    vm02Block proj dagdeel (vm02Block proj dagdeel p) = vm02Block proj dagdeel p := by
  obtain ⟨s, e⟩ := p
  unfold vm02Block
  split_ifs with hg
  · dsimp only
    rcases h with h | h
    · dsimp only at h
      subst h
      simp only [vm02Start_none, vm02Roll_none_left, vm02EndClamp_idem]
    · dsimp only at h
      subst h
      simp only [vm02Roll_none_right, vm02EndClamp_none, vm02Start_idem]
  · rfl

theorem gzBlock_none_anchor (proj : String) (p : OT × OT) : gzBlock proj none p = p := by
  obtain ⟨s, e⟩ := p
  unfold gzBlock
  split_ifs with hg
  · dsimp only
    cases s <;> cases e <;> rfl
  · rfl

theorem zrBlock_none_anchor (proj : String) (p : OT × OT) : zrBlock proj none p = p := by
  obtain ⟨s, e⟩ := p
  unfold zrBlock
  split_ifs with hg
  · dsimp only
    cases s <;> cases e <;> rfl
  · rfl

/-- C1 (amended): the engine is idempotent — a second application to the
suggested start and end returns the same suggested start, end and
duration — for every record except possibly (i) VM02-evening records
with both start and end non-null (where the end clock-clamp can land the
end at or before the clamped start and a second application fires the
midnight rollover again: see the counterexample), and (ii) records whose
code contains both `GZ` and `ZR` with both anchors non-null (where the
two substring rules can keep re-snapping each other's output). -/
theorem c1_idempotent_amended :
    ∀ (proj dagdeel : String) (start0 end0 sunriseL sunsetL : OT),
      ¬(isVM02 proj = true ∧ startsAvond dagdeel = true ∧
          start0.isSome = true ∧ end0.isSome = true) →
      ¬(hasGZ proj = true ∧ hasZR proj = true ∧
          sunriseL.isSome = true ∧ sunsetL.isSome = true) →
      get_fieldvisit_time_suggest proj dagdeel
          (get_fieldvisit_time_suggest proj dagdeel start0 end0 sunriseL sunsetL).start
          (get_fieldvisit_time_suggest proj dagdeel start0 end0 sunriseL sunsetL).end_
          sunriseL sunsetL =
        get_fieldvisit_time_suggest proj dagdeel start0 end0 sunriseL sunsetL := by
  intro proj dagdeel start0 end0 sr ss hV hGZ
  have hpair : suggestPair proj dagdeel sr ss (suggestPair proj dagdeel sr ss (start0, end0)) =
      suggestPair proj dagdeel sr ss (start0, end0) := by
    by_cases h1 : isVM01 proj = true
    · by_cases ha : startsAvond dagdeel = true
      · simp only [suggestPair_vm01_avond h1 ha]
        exact vm01AvondBlock_idem proj dagdeel ss _
      · by_cases ho : startsOchtend dagdeel = true
        · simp only [suggestPair_vm01_ochtend h1 ho]
          exact vm01OchtendBlock_idem proj dagdeel sr _
        · have ha' : startsAvond dagdeel = false := Bool.eq_false_iff.mpr ha
          have ho' : startsOchtend dagdeel = false := Bool.eq_false_iff.mpr ho
          have hid : ∀ q : OT × OT, suggestPair proj dagdeel sr ss q = q := by
            intro q
            simp [suggestPair, zrBlock, gzBlock, vm02Block, vm01OchtendBlock, vm01AvondBlock,
              hasZR_of_VM01 h1, hasGZ_of_VM01 h1, isVM02_of_VM01 h1, ha', ho']
          rw [hid, hid]
    · have h1' : isVM01 proj = false := Bool.eq_false_iff.mpr h1
      by_cases h2 : isVM02 proj = true
      · simp only [suggestPair_vm02 h2]
        by_cases ha : startsAvond dagdeel = true
        · have hne : start0 = none ∨ end0 = none := by
            cases start0 with
            | none => exact Or.inl rfl
            | some a =>
              cases end0 with
              | none => exact Or.inr rfl
              | some b => exact absurd ⟨h2, ha, rfl, rfl⟩ hV
          exact vm02Block_idem_of_none proj dagdeel (start0, end0) hne
        · have ha' : startsAvond dagdeel = false := Bool.eq_false_iff.mpr ha
          have hid : ∀ q : OT × OT, vm02Block proj dagdeel q = q := by
            intro q
            unfold vm02Block
            rw [ha']
            simp
          rw [hid, hid]
      · have h2' : isVM02 proj = false := Bool.eq_false_iff.mpr h2
        have hsp : ∀ q : OT × OT,
            suggestPair proj dagdeel sr ss q = zrBlock proj sr (gzBlock proj ss q) := by
          intro q
          simp [suggestPair, vm02Block, vm01OchtendBlock, vm01AvondBlock, h1', h2']
        simp only [hsp]
        by_cases hg : hasGZ proj = true
        · by_cases hz : hasZR proj = true
          · have hanchor : sr = none ∨ ss = none := by
              cases sr with
              | none => exact Or.inl rfl
              | some a =>
                cases ss with
                | none => exact Or.inr rfl
                | some b => exact absurd ⟨hg, hz, rfl, rfl⟩ hGZ
            rcases hanchor with h | h
            · subst h
              simp only [zrBlock_none_anchor]
              exact gzBlock_idem proj ss _
            · subst h
              simp only [gzBlock_none_anchor]
              exact zrBlock_idem proj sr _
          · have hz' : hasZR proj = false := Bool.eq_false_iff.mpr hz
            have hzid : ∀ q : OT × OT, zrBlock proj sr q = q := by
              intro q
              unfold zrBlock
              rw [hz']
              simp
            simp only [hzid]
            exact gzBlock_idem proj ss _
        · have hg' : hasGZ proj = false := Bool.eq_false_iff.mpr hg
          have hgid : ∀ q : OT × OT, gzBlock proj ss q = q := by
            intro q
            unfold gzBlock
            rw [hg']
            simp
          simp only [hgid]
          by_cases hz : hasZR proj = true
          · exact zrBlock_idem proj sr _
          · have hz' : hasZR proj = false := Bool.eq_false_iff.mpr hz
            have hzid : ∀ q : OT × OT, zrBlock proj sr q = q := by
              intro q
              unfold zrBlock
              rw [hz']
              simp
            rw [hzid, hzid]
  unfold get_fieldvisit_time_suggest
  dsimp only
  rw [Prod.mk.eta, hpair]

/-- C1 witness: a GZ record (one active rule family) — the second
application of the engine to its own output changes nothing. -/
theorem c1_idempotent_amended_witness :
    (¬(isVM02 "GZ" = true ∧ startsAvond "" = true ∧
        (some (0 : Int)).isSome = true ∧ (none : OT).isSome = true)) ∧
    get_fieldvisit_time_suggest "GZ" ""
        (get_fieldvisit_time_suggest "GZ" "" (some 0) none none (some 75600)).start
        (get_fieldvisit_time_suggest "GZ" "" (some 0) none none (some 75600)).end_
        none (some 75600) =
      get_fieldvisit_time_suggest "GZ" "" (some 0) none none (some 75600) :=
  ⟨by decide, c1_idempotent_amended "GZ" "" (some 0) none none (some 75600)
    (by decide) (by decide)⟩

/-! ### Character-class facts used for the C8 code-shape analysis -/

theorem upChar_digit {c : Char} (h : isDigitC c = true) : upChar c = c := by
  unfold isDigitC at h
  simp only [Bool.and_eq_true, decide_eq_true_eq] at h
  unfold upChar
  rw [if_neg]
  simp only [Bool.and_eq_true, decide_eq_true_eq, not_and]
  omega

theorem isSepC_of_digit {c : Char} (h : isDigitC c = true) : isSepC c = false := by
  apply Bool.eq_false_iff.mpr
  intro hc
  unfold isSepC at hc
  simp only [Bool.or_eq_true] at hc
  rcases hc with hc | hc
  · rw [eq_of_beq hc] at h
    exact absurd h (by decide)
  · rw [eq_of_beq hc] at h
    exact absurd h (by decide)

theorem allDigits_digitRun (l : List Char) : allDigits (digitRun l) = true := by
  induction l with
  | nil => rfl
  | cons c t ih =>
    unfold digitRun at *
    by_cases hc : isDigitC c = true
    · rw [List.takeWhile_cons_of_pos hc]
      unfold allDigits at *
      rw [List.all_cons, hc, ih]
      rfl
    · rw [List.takeWhile_cons_of_neg (by simpa using hc)]
      rfl

theorem map_upChar_digits {l : List Char} (h : allDigits l = true) : l.map upChar = l := by
  induction l with
  | nil => rfl
  | cons c t ih =>
    unfold allDigits at h
    rw [List.all_cons, Bool.and_eq_true] at h
    rw [List.map_cons, upChar_digit h.1, ih h.2]

theorem stripSeps_cons_sep {c : Char} (h : isSepC c = true) (l : List Char) :
    stripSeps (c :: l) = stripSeps l := by
  unfold stripSeps
  rw [List.filter_cons_of_neg (by simp [h])]

theorem stripSeps_cons_nonsep {c : Char} (h : isSepC c = false) (l : List Char) :
    stripSeps (c :: l) = c :: stripSeps l := by
  unfold stripSeps
  rw [List.filter_cons_of_pos (by simp [h])]

theorem stripSeps_digits {l : List Char} (h : allDigits l = true) : stripSeps l = l := by
  induction l with
  | nil => rfl
  | cons c t ih =>
    unfold allDigits at h
    rw [List.all_cons, Bool.and_eq_true] at h
    rw [stripSeps_cons_nonsep (isSepC_of_digit h.1), ih h.2]

theorem toList_mk (l : List Char) : (String.mk l).toList = l := rfl

/-- Any list of the form `P :: 'M' :: ds` with `P` one of the uppercase
code letters and `ds` a nonempty digit run lands in `codeShape` after the
zero-padding and WM-rewrite post-processing. -/
theorem postUpper (P : Char) (hP : P = 'V' ∨ P = 'Z' ∨ P = 'H' ∨ P = 'W')
    {ds : List Char} (hne : ds ≠ []) (hdig : allDigits ds = true) :
    codeShape (String.mk (wmFix (padVM (P :: 'M' :: ds)))) = true := by
  rcases ds with _ | ⟨d, ds'⟩
  · exact absurd rfl hne
  have hd : isDigitC d = true := by
    unfold allDigits at hdig
    rw [List.all_cons, Bool.and_eq_true] at hdig
    exact hdig.1
  have hds' : allDigits ds' = true := by
    unfold allDigits at hdig ⊢
    rw [List.all_cons, Bool.and_eq_true] at hdig
    exact hdig.2
  rcases ds' with _ | ⟨d2, ds''⟩ <;>
    rcases hP with h | h | h | h <;> subst h <;>
    simp_all +decide [padVM, wmFix, codeShape, toList_mk, allDigits]

theorem allDigits_nil : allDigits [] = true := rfl

theorem allDigits_cons (c : Char) (l : List Char) :
    allDigits (c :: l) = (isDigitC c && allDigits l) := rfl

/-- The first pattern alternative only produces texts of the matched
shape. -/
theorem matchAlt1_shape {l m : List Char} (h : matchAlt1 l = some m) : altShape m = true := by
  rcases l with _ | ⟨c0, _ | ⟨c1, rest⟩⟩
  · exact absurd h (by simp [matchAlt1])
  · exact absurd h (by simp [matchAlt1])
  unfold matchAlt1 at h
  dsimp only at h
  by_cases hg : (isCodeLetter c0 && (c1 == 'm')) = true
  · rw [if_pos hg] at h
    rw [Bool.and_eq_true] at hg
    obtain ⟨hcode, hm1⟩ := hg
    rcases rest with _ | ⟨c2, _ | ⟨c3, rest2⟩⟩
    · simp at h
    · -- rest = [c2]
      dsimp only at h
      by_cases hd : isDigitC c2 = true
      · rw [if_pos hd] at h
        injection h with h
        subst h
        simp [altShape, hcode, hm1, hd, allDigits_nil]
      · rw [if_neg hd] at h
        simp at h
    · -- rest = c2 :: c3 :: rest2
      dsimp only at h
      by_cases hsd : (isSepC c2 && isDigitC c3) = true
      · rw [if_pos hsd] at h
        rw [Bool.and_eq_true] at hsd
        injection h with h
        subst h
        simp [altShape, hcode, hm1, hsd.1, hsd.2, allDigits_cons, allDigits_digitRun]
      · rw [if_neg hsd] at h
        by_cases hd2 : isDigitC c2 = true
        · rw [if_pos hd2] at h
          injection h with h
          subst h
          simp [altShape, hcode, hm1, hd2, allDigits_cons, allDigits_digitRun]
        · rw [if_neg hd2] at h
          simp at h
  · rw [if_neg hg] at h
    simp at h

theorem matchLit_eq {lit l m : List Char} (h : matchLit lit l = some m) : m = lit := by
  unfold matchLit at h
  split_ifs at h
  injection h with h
  exact h.symm

/-- Any text matched by the code pattern has one of the five alternative
shapes. -/
theorem matchAt_shape {l m : List Char} (h : matchAt l = some m) : altShape m = true := by
  unfold matchAt at h
  cases h1 : matchAlt1 l with
  | some m1 =>
    rw [h1] at h
    dsimp only at h
    injection h with h
    subst h
    exact matchAlt1_shape h1
  | none =>
    rw [h1] at h
    dsimp only at h
    cases h2 : matchLit ('g' :: ['z']) l with
    | some m2 =>
      rw [h2] at h
      dsimp only at h
      injection h with h
      subst h
      rw [matchLit_eq h2]
      decide
    | none =>
      rw [h2] at h
      dsimp only at h
      cases h3 : matchLit ('z' :: ['r']) l with
      | some m3 =>
        rw [h3] at h
        dsimp only at h
        injection h with h
        subst h
        rw [matchLit_eq h3]
        decide
      | none =>
        rw [h3] at h
        dsimp only at h
        cases h4 : matchLit ('h' :: ['m']) l with
        | some m4 =>
          rw [h4] at h
          dsimp only at h
          injection h with h
          subst h
          rw [matchLit_eq h4]
          decide
        | none =>
          rw [h4] at h
          dsimp only at h
          rw [matchLit_eq h]
          decide

/-- Any text found by the leftmost search has one of the five alternative
shapes. -/
theorem searchCode_shape {l m : List Char} (h : searchCode l = some m) : altShape m = true := by
  induction l with
  | nil =>
    unfold searchCode at h
    exact matchAt_shape h
  | cons c rest ih =>
    unfold searchCode at h
    cases h1 : matchAt (c :: rest) with
    | some m1 =>
      rw [h1] at h
      dsimp only at h
      injection h with h
      subst h
      exact matchAt_shape h1
    | none =>
      rw [h1] at h
      dsimp only at h
      exact ih h

/-- The post-processing maps every matched shape into the set of codes
the extractor can emit. -/
theorem postCode_shape {m : List Char} (h : altShape m = true) :
    codeShape (postCode m) = true := by
  unfold altShape at h
  simp only [Bool.or_eq_true] at h
  rcases h with (((h | h) | h) | h) | h
  · rw [eq_of_beq h]
    decide
  · rw [eq_of_beq h]
    decide
  · rw [eq_of_beq h]
    decide
  · rw [eq_of_beq h]
    decide
  · revert h
    rcases m with _ | ⟨c0, _ | ⟨c1, _ | ⟨c2, t2⟩⟩⟩ <;> intro h
    · simp at h
    · simp at h
    · dsimp only at h
      simp at h
    · dsimp only at h
      simp only [Bool.and_eq_true, Bool.or_eq_true] at h
      obtain ⟨⟨hcode, hm1⟩, hinner⟩ := h
      have hc1 : c1 = 'm' := eq_of_beq hm1
      subst hc1
      unfold isCodeLetter at hcode
      simp only [Bool.or_eq_true] at hcode
      rcases hinner with ⟨⟨hsep1, hne1⟩, hdig⟩ | ⟨hd2, hdig⟩
      · -- separator variant: the separator is dropped by stripSeps
        have hne : t2 ≠ [] := by
          cases t2 with
          | nil => exact absurd hne1 (by decide)
          | cons a b => exact List.cons_ne_nil _ _
        have hup2 : upChar c2 = c2 := by
          have hx := hsep1
          unfold isSepC at hx
          simp only [Bool.or_eq_true] at hx
          rcases hx with hx | hx
          · rw [eq_of_beq hx]
            rfl
          · rw [eq_of_beq hx]
            rfl
        unfold postCode
        rw [List.map_cons, List.map_cons, List.map_cons,
          show upChar 'm' = 'M' from rfl, map_upChar_digits hdig, hup2]
        rcases hcode with ((hx | hx) | hx) | hx <;> rw [eq_of_beq hx]
        · rw [show upChar 'v' = 'V' from rfl,
            stripSeps_cons_nonsep (show isSepC 'V' = false from rfl),
            stripSeps_cons_nonsep (show isSepC 'M' = false from rfl),
            stripSeps_cons_sep hsep1, stripSeps_digits hdig]
          exact postUpper 'V' (Or.inl rfl) hne hdig
        · rw [show upChar 'z' = 'Z' from rfl,
            stripSeps_cons_nonsep (show isSepC 'Z' = false from rfl),
            stripSeps_cons_nonsep (show isSepC 'M' = false from rfl),
            stripSeps_cons_sep hsep1, stripSeps_digits hdig]
          exact postUpper 'Z' (Or.inr (Or.inl rfl)) hne hdig
        · rw [show upChar 'w' = 'W' from rfl,
            stripSeps_cons_nonsep (show isSepC 'W' = false from rfl),
            stripSeps_cons_nonsep (show isSepC 'M' = false from rfl),
            stripSeps_cons_sep hsep1, stripSeps_digits hdig]
          exact postUpper 'W' (Or.inr (Or.inr (Or.inr rfl))) hne hdig
        · rw [show upChar 'h' = 'H' from rfl,
            stripSeps_cons_nonsep (show isSepC 'H' = false from rfl),
            stripSeps_cons_nonsep (show isSepC 'M' = false from rfl),
            stripSeps_cons_sep hsep1, stripSeps_digits hdig]
          exact postUpper 'H' (Or.inr (Or.inr (Or.inl rfl))) hne hdig
      · -- digit variant: the whole tail is one digit run
        have hall : allDigits (c2 :: t2) = true := by
          rw [allDigits_cons, hd2, hdig]
          rfl
        unfold postCode
        rw [List.map_cons, List.map_cons, show upChar 'm' = 'M' from rfl,
          map_upChar_digits hall]
        rcases hcode with ((hx | hx) | hx) | hx <;> rw [eq_of_beq hx]
        · rw [show upChar 'v' = 'V' from rfl,
            stripSeps_cons_nonsep (show isSepC 'V' = false from rfl),
            stripSeps_cons_nonsep (show isSepC 'M' = false from rfl),
            stripSeps_digits hall]
          exact postUpper 'V' (Or.inl rfl) (List.cons_ne_nil _ _) hall
        · rw [show upChar 'z' = 'Z' from rfl,
            stripSeps_cons_nonsep (show isSepC 'Z' = false from rfl),
            stripSeps_cons_nonsep (show isSepC 'M' = false from rfl),
            stripSeps_digits hall]
          exact postUpper 'Z' (Or.inr (Or.inl rfl)) (List.cons_ne_nil _ _) hall
        · rw [show upChar 'w' = 'W' from rfl,
            stripSeps_cons_nonsep (show isSepC 'W' = false from rfl),
            stripSeps_cons_nonsep (show isSepC 'M' = false from rfl),
            stripSeps_digits hall]
          exact postUpper 'W' (Or.inr (Or.inr (Or.inr rfl))) (List.cons_ne_nil _ _) hall
        · rw [show upChar 'h' = 'H' from rfl,
            stripSeps_cons_nonsep (show isSepC 'H' = false from rfl),
            stripSeps_cons_nonsep (show isSepC 'M' = false from rfl),
            stripSeps_digits hall]
          exact postUpper 'H' (Or.inr (Or.inr (Or.inl rfl))) (List.cons_ne_nil _ _) hall

/-- C8 counterexample: the visit name `"zm3"` yields protocol code
`"ZM3"`, which lies outside the claimed closed set {VM01, VM02, VM03,
VM0N, GZ, ZR, HM, UITVLIEGTELLING}. -/
theorem c8_counterexample :
    (_extract_project_and_daypart (some "zm3")).1 = some "ZM3" ∧
    claimedCode "ZM3" = false := by
  refine ⟨by decide, by decide⟩

/-- C8 (amended): for every visit name the extracted protocol code is
either null or of the shape `codeShape`: one of GZ, ZR, HM,
UITVLIEGTELLING, or `VM`/`ZM`/`HM` followed by one or more digits — a
superset of the claimed set that the pattern `[vzwh]m[- ]?\d+` actually
admits. -/
theorem c8_code_shape :
    ∀ name : Option String,
      Option.all codeShape (_extract_project_and_daypart name).1 = true := by
  intro name
  cases name with
  | none => rfl
  | some s =>
    unfold _extract_project_and_daypart
    dsimp only
    split_ifs with hs
    · rfl
    · dsimp only
      cases hsc : searchCode (lowerList s) with
      | none => rfl
      | some m =>
        rw [Option.map_some', Option.all_some]
        exact postCode_shape (searchCode_shape hsc)
